import Mathlib

/-!
Verification development for the `json-schema-deref-sync` reference-resolution
engine (`src/lib/index.js`).  The JSON data model, traversal, cycle detection,
state, cache and top-level `deref` are embedded as executable Lean functions,
translated from the source.  Recursion that is not structural in the source
(descending into substituted values, recursively dereferencing loaded files)
is made total with a fuel parameter; `none` means the fuel ran out.  The
repository does not ship `lib/utils.js` or `lib/loaders/file.js` (only
`lib/index.js` is present), so the small parsing helpers and the file loader
are modelled from the specification's interface contracts (spec sections 4.1,
4.2 and 6); each such definition is marked `Modelled from the spec:` in its
doc comment.
-/

/-- The JSON data model (spec section 3): Null, Bool, Number, String,
Sequence, and Object as an ordered mapping with string keys.  The extra
constructor `errv` stands for a JavaScript `Error` object flowing as a value
(the source can splice an `Error` returned by a nested `derefSchema` into the
document because it never checks `instanceof Error` there). -/
inductive J where
  | null
  | bool (b : Bool)
  | num (n : Int)
  | str (s : String)
  | arr (xs : List J)
  | obj (kvs : List (String × J))
  | errv (msg : String)
deriving Repr

namespace Deref

/-- JavaScript truthiness of a value, as used by `if (loaderValue)` and
`if (refNewVal)` in `getRefSchema`. -/
def jsTruthy : J → Bool
  | .null => false
  | .bool b => b
  | .num n => n != 0
  | .str s => s != ""
  | .arr _ => true
  | .obj _ => true
  | .errv _ => true

/-- First binding of a key in an ordered object. -/
def lookupKey : List (String × J) → String → Option J
  | [], _ => none
  | (k, v) :: rest, key => if k == key then some v else lookupKey rest key

/-- `typeof node.$ref === 'string'` check of `index.js` lines 158/222: an
object node whose `$ref` field holds a string.  Returns the reference string
(`utils.getRefValue`). -/
def refValue? : J → Option String
  | .obj kvs =>
      match lookupKey kvs "$ref" with
      | some (.str s) => some s
      | _ => none
  | _ => none

mutual

/-- A document contains no `$ref` key anywhere (the hypothesis of the
identity property, spec section 8). -/
def noRefs : J → Bool
  | .null => true
  | .bool _ => true
  | .num _ => true
  | .str _ => true
  | .errv _ => true
  | .arr xs => noRefsArr xs
  | .obj kvs => noRefsFields kvs

/-- `noRefs` on the elements of an array. -/
def noRefsArr : List J → Bool
  | [] => true
  | x :: xs => noRefs x && noRefsArr xs

/-- `noRefs` on object fields: no field is named `$ref` and all values are
recursively free of `$ref` keys. -/
def noRefsFields : List (String × J) → Bool
  | [] => true
  | (k, v) :: rest => k != "$ref" && noRefs v && noRefsFields rest

end

/-- Some object somewhere in the document has a `$ref` key. -/
def hasRefKey (j : J) : Bool := !(noRefs j)

/-- One character list is a prefix of another. -/
def listStarts : List Char → List Char → Bool
  | [], _ => true
  | _ :: _, [] => false
  | a :: as, b :: bs => a == b && listStarts as bs

/-- One character list occurs inside another. -/
def listSub (needle : List Char) : List Char → Bool
  | [] => needle.isEmpty
  | c :: rest => listStarts needle (c :: rest) || listSub needle rest

/-- The needle string occurs somewhere inside the haystack
(`hay.indexOf(needle) >= 0`). -/
def isSubstr (needle hay : String) : Bool :=
  listSub needle.toList hay.toList

/-- The string starts with the given prefix. -/
def strStarts (pre s : String) : Bool := listStarts pre.toList s.toList

/-- The string ends with the given suffix. -/
def strEnds (suf s : String) : Bool :=
  listStarts suf.toList.reverse s.toList.reverse

/-- Drop the first `n` characters of a string. -/
def strDrop (s : String) (n : Nat) : String := String.mk (s.toList.drop n)

/-- Split a character list at every occurrence of the separator. -/
def splitCList (sep : Char) : List Char → List (List Char)
  | [] => [[]]
  | c :: rest =>
      if c == sep then [] :: splitCList sep rest
      else
        match splitCList sep rest with
        | [] => [[c]]
        | part :: parts => (c :: part) :: parts

/-- Split a string on a single-character separator (JavaScript
`s.split(sep)`). -/
def splitC (sep : Char) (s : String) : List String :=
  (splitCList sep s.toList).map String.mk

/-- ASCII lower-casing of one character. -/
def lowerChar (c : Char) : Char :=
  if 'A' ≤ c && c ≤ 'Z' then Char.ofNat (c.toNat + 32) else c

/-- ASCII lower-casing of a string (JavaScript `s.toLowerCase()`). -/
def strToLower (s : String) : String := String.mk (s.toList.map lowerChar)

/-- Parse a string of decimal digits as a sequence index (accumulator form). -/
def parseNatList : List Char → Option Nat → Option Nat
  | [], acc => acc
  | c :: rest, acc =>
      if '0' ≤ c && c ≤ '9' then
        parseNatList rest (some ((acc.getD 0) * 10 + (c.toNat - '0'.toNat)))
      else none

/-- Parse a string as a sequence index, `none` if not all digits. -/
def parseNat? (s : String) : Option Nat := parseNatList s.toList none

/-- Join strings with a separator (JavaScript `array.join(sep)`). -/
def joinStrs (sep : String) : List String → String
  | [] => ""
  | [x] => x
  | x :: rest => x ++ sep ++ joinStrs sep rest

/-- One decimal digit as a character. -/
def digitChar : Nat → Char
  | 0 => '0'
  | 1 => '1'
  | 2 => '2'
  | 3 => '3'
  | 4 => '4'
  | 5 => '5'
  | 6 => '6'
  | 7 => '7'
  | 8 => '8'
  | _ => '9'

/-- Decimal digits of a number (fuel-bounded helper). -/
def natToStrGo : Nat → Nat → List Char
  | 0, _ => []
  | f + 1, n => if n < 10 then [digitChar n] else natToStrGo f (n / 10) ++ [digitChar (n % 10)]

/-- Decimal rendering of a sequence index. -/
def natToStr (n : Nat) : String := String.mk (natToStrGo (n + 1) n)

/-- Decimal rendering of an integer. -/
def intToStr (i : Int) : String :=
  if i < 0 then "-" ++ natToStr i.natAbs else natToStr i.natAbs

/-- Reference kinds (spec section 3): Local, the one registered External
loader kind (`file`), or Unsupported. -/
inductive RefType where
  | localRef
  | file
  | unsupported
deriving Repr, DecidableEq

/-- Modelled from the spec: the Reference Classifier contract of section 4.2
(the repository's `utils.getRefType`; `lib/utils.js` is not in `src/`).  A
string starting with `#` is Local; a target whose base (before the first `#`)
has the registered file shape maps to the `file` loader; anything else is
Unsupported. -/
def getRefType (val : String) : RefType :=
  if strStarts "#" val then .localRef
  else
    let target := (splitC '#' val).headD ""
    if strEnds ".json" target then .file else .unsupported

/-- Modelled from the spec: splitting a reference string on the first `#`
separates the external target from the pointer (spec section 4.2); this is
the repository's `utils.getRefFilePath`. -/
def getRefFilePath (val : String) : String :=
  (splitC '#' val).headD ""

/-- Walk a document one pointer segment at a time: object-key or
sequence-index lookup; NotFound (`none`) if a segment is absent or applied to
a scalar (spec section 4.1). -/
def walkPath : J → List String → Option J
  | doc, [] => some doc
  | .obj kvs, seg :: rest =>
      match lookupKey kvs seg with
      | some v => walkPath v rest
      | none => none
  | .arr xs, seg :: rest =>
      match parseNat? seg with
      | some i =>
          match xs.get? i with
          | some v => walkPath v rest
          | none => none
      | none => none
  | _, _ :: _ => none

/-- Modelled from the spec: the Pointer Path Resolver contract of section 4.1
(the repository's `utils.getRefPathValue`).  Strips a leading `#`, splits the
pointer on `/`, discards the leading empty segment, and walks the document. -/
def getRefPathValue (doc : J) (refPath : String) : Option J :=
  let p := if strStarts "#" refPath then strDrop refPath 1 else refPath
  let segs :=
    match splitC '/' p with
    | "" :: rest => rest
    | segs => segs
  walkPath doc segs

/-- Modelled from the spec: absolute-path test used to canonicalize external
targets (section 6 "base location"); POSIX shape. -/
def isAbsolute (s : String) : Bool := strStarts "/" s

/-- Modelled from the spec: resolving a possibly-relative path against a base
directory (Node's `path.resolve` as used by `index.js`; the development's
examples avoid `..` segments so no normalization is needed). -/
def pathResolve (base p : String) : String :=
  if isAbsolute p then p
  else if strEnds "/" base then base ++ p
  else base ++ "/" ++ p

/-- Modelled from the spec: the directory part of a relative file path
(Node's `path.dirname`); `"."` when the path has no directory component. -/
def pathDirname (p : String) : String :=
  match (splitC '/' p).dropLast with
  | [] => "."
  | segs => joinStrs "/" segs

/-- Modelled from the spec: the process working directory
(`process.cwd()`), an opaque absolute path. -/
def processCwd : String := "/cwd"

mutual

/-- A canonical serialization of a document (`JSON.stringify` as used to
fingerprint the root document). -/
def stringify : J → String
  | .null => "null"
  | .bool b => if b then "true" else "false"
  | .num n => intToStr n
  | .str s => "\"" ++ s ++ "\""
  | .arr xs => "[" ++ joinStrs "," (stringifyArr xs) ++ "]"
  | .obj kvs => "\x7b" ++ joinStrs "," (stringifyFields kvs) ++ "\x7d"
  | .errv _ => "\x7b\x7d"

/-- Serialize array elements. -/
def stringifyArr : List J → List String
  | [] => []
  | x :: xs => stringify x :: stringifyArr xs

/-- Serialize object fields. -/
def stringifyFields : List (String × J) → List String
  | [] => []
  | (k, v) :: rest => ("\"" ++ k ++ "\":" ++ stringify v) :: stringifyFields rest

end

/-- Modelled from the spec: a deterministic collision-resistant content
fingerprint (section 3 "canonical identity"; the hash algorithm is explicitly
not load-bearing, so the identity serialization itself serves as the
fingerprint). -/
def md5 (s : String) : String := s

/-- One local reference found by the static scan: the tree path of the
reference node (keys joined with `/`) and the `$ref` string. -/
structure LocalRef where
  src : String
  dst : String
deriving Repr, DecidableEq

mutual

/-- Static scan of `checkLocalCircular` (lines 157-172): collect every object
node whose `$ref` is a string, classified local, with truthy value, together
with its tree path. -/
def collectLocals (p : List String) : J → List LocalRef
  | .obj kvs =>
      let here :=
        match refValue? (.obj kvs) with
        | some val =>
            if getRefType val == .localRef && val != "" then
              [⟨joinStrs "/" p, val⟩]
            else []
        | none => []
      here ++ collectLocalsFields p kvs
  | .arr xs => collectLocalsArr p 0 xs
  | .null => []
  | .bool _ => []
  | .num _ => []
  | .str _ => []
  | .errv _ => []

/-- Static scan over object fields, in key order. -/
def collectLocalsFields (p : List String) : List (String × J) → List LocalRef
  | [] => []
  | (k, v) :: rest => collectLocals (p ++ [k]) v ++ collectLocalsFields p rest

/-- Static scan over array elements, in index order. -/
def collectLocalsArr (p : List String) (i : Nat) : List J → List LocalRef
  | [] => []
  | x :: xs => collectLocals (p ++ [natToStr i]) x ++ collectLocalsArr p (i + 1) xs

end

/-- Reachability in an edge list with bounded depth, used to model the
cycle-aware edge insertion of the `dag-map` dependency. -/
def reach (edges : List (String × String)) : Nat → String → String → Bool
  | 0, a, b => a == b
  | n + 1, a, b =>
      a == b || (edges.filter (fun e => e.1 == a)).any (fun e => reach edges n e.2 b)

/-- `dag.addEdge(from, dest)` throws exactly when the new edge closes a cycle,
i.e. when `dest` already reaches `from` (including `dest = from`). -/
def createsCycle (edges : List (String × String)) (src dst : String) : Bool :=
  reach edges (edges.length + 1) dst src

/-- The `_.find` loop of `checkLocalCircular` (lines 182-194): scan the local
references in order, growing the DAG; flag the first one whose edge insertion
throws or whose resolved target path occurs inside its own tree path. -/
def findCirc (edges : List (String × String)) : List LocalRef → Option LocalRef
  | [] => none
  | l :: rest =>
      let src := l.src ++ "/"
      let dst := (strDrop l.dst 2) ++ "/"
      if createsCycle edges src dst then some l
      else if isSubstr dst src then some l
      else findCirc (edges ++ [(src, dst)]) rest

/-- Error values returned by the engine (`new Error(...)` in `index.js`). -/
inductive Err where
  | circularRoot
  | circularSelf (src dst : String)
  | circularRefs (refs : List String)
  | missingRef (refVal : String)
deriving Repr, DecidableEq

/-- `checkLocalCircular` (lines 155-199): static local-cycle pass. -/
def checkLocalCircular (schema : J) : Option Err :=
  let locals := collectLocals [] schema
  if locals.isEmpty then none
  else if locals.any (fun l => l.dst == "#") then some .circularRoot
  else
    match findCirc [] locals with
    | some l => some (.circularSelf l.src l.dst)
    | none => none

/-- Association-list lookup keyed by strings (used for the external-document
cache and for the modelled filesystem). -/
def alookup {α : Type} : List (String × α) → String → Option α
  | [], _ => none
  | (k, v) :: rest, key => if k == key then some v else alookup rest key

/-- Ghost event log recording the observable actions of one top-level call:
loader invocations (with the `baseFolder` in force at call time), cache
stores, node substitutions, and the setting of the circular flag / terminal
error.  Newest event first. -/
inductive Event where
  | loaderCall (fullPath : String) (base : String)
  | cacheStore (fullPath : String)
  | subst (refVal : String)
  | circularSet
  | errorSet
deriving Repr, DecidableEq

/-- The caller-supplied options object (`options.baseFolder`,
`options.failOnMissing`); mutated by the engine exactly as in the source. -/
structure Options where
  baseFolder : Option String
  failOnMissing : Bool
deriving Repr, DecidableEq

/-- The per-invocation Resolution State of `deref` (lines 276-283), plus the
ghost `events` log. -/
structure St where
  circular : Bool
  circularRefs : List String
  cwd : String
  missing : List String
  history : List String
  current : String
  error : Option Err
  events : List Event
deriving Repr, DecidableEq

/-- The process-wide external-document cache (line 17). -/
abbrev Cache := List (String × J)

/-- The modelled filesystem: absolute file path to parsed document. -/
abbrev Env := List (String × J)

/-- `addToHistory` (lines 108-129): compute the normalized visitation marker
and push it unless it is already present (or the reference is the root
self-reference `#`). -/
def addToHistory (st : St) (type : RefType) (value : String) : Bool × St :=
  match type with
  | .file =>
      let dest := strToLower (getRefFilePath value)
      if st.history.contains dest then (false, st)
      else (true, { st with history := st.history ++ [dest] })
  | _ =>
      if value == "#" then (false, st)
      else
        let dest := strToLower (st.current ++ ":" ++ value)
        if st.history.contains dest then (false, st)
        else (true, { st with history := st.history ++ [dest] })

/-- `setCurrent` (lines 138-147): entering a file retargets the current
document identity; it is never restored on the way out. -/
def setCurrent (st : St) (type : RefType) (value : String) : St :=
  match type with
  | .file =>
      let dest := getRefFilePath value
      if dest != "" then { st with current := dest } else st
  | _ => st

/-- Modelled from the spec: the registered `file` loader
(`lib/loaders/file.js` is not in `src/`; section 6 loader contract).  It
resolves the target's base against `options.baseFolder` and returns the
parsed document at that absolute path, or `none`. -/
def fileLoader (refVal : String) (o : Options) (env : Env) : Option J :=
  let p := getRefFilePath refVal
  let base := o.baseFolder.getD processCwd
  let baseAbs := if isAbsolute base then base else pathResolve processCwd base
  let full := if isAbsolute p then p else pathResolve baseAbs p
  alookup env full

/-- The human-readable message carried by an `Error` object. -/
def errMsg : Err → String
  | .circularRoot => "Circular self reference"
  | .circularSelf s d => "Circular self reference from " ++ s ++ " to " ++ d
  | .circularRefs rs => "circular references found: " ++ joinStrs "," rs
  | .missingRef r => "Missing $ref: " ++ r

mutual

/-- In-place update at a tree path (`this.update` of the `traverse`
dependency): replace the value at the given path inside the working
document. -/
def setAtPath : J → List String → J → J
  | _, [], v => v
  | .obj kvs, k :: rest, v => .obj (setAtPathFields kvs k rest v)
  | .arr xs, k :: rest, v =>
      match parseNat? k with
      | some i => .arr (setAtPathIdx xs i rest v)
      | none => .arr xs
  | node, _ :: _, _ => node

/-- `setAtPath` through an object field. -/
def setAtPathFields : List (String × J) → String → List String → J → List (String × J)
  | [], _, _, _ => []
  | (k', v') :: kvs, k, rest, v =>
      if k' == k then (k', setAtPath v' rest v) :: kvs
      else (k', v') :: setAtPathFields kvs k rest v

/-- `setAtPath` through an array index. -/
def setAtPathIdx : List J → Nat → List String → J → List J
  | [], _, _, _ => []
  | x :: xs, 0, rest, v => setAtPath x rest v :: xs
  | x :: xs, i + 1, rest, v => x :: setAtPathIdx xs i rest v

end

/-- The base-folder adjustment of `getRefSchema` (lines 55-67): when the
referenced file lives in a nested folder, remember the old working directory
and retarget both `options.baseFolder` and `state.cwd` to that folder. -/
def pushBase (o : Options) (st : St) (filePath : String) : Option String × Options × St :=
  let dirname := pathDirname filePath
  let dirname := if dirname == "." then "" else dirname
  if dirname = "" then (none, o, st)
  else
    let nb := pathResolve st.cwd dirname
    (some st.cwd, { o with baseFolder := some nb }, { st with cwd := nb })

/-- The reset of `getRefSchema` (lines 71-74): restore the remembered base
folder, if one was saved. -/
def popBase (oldBase? : Option String) (o : Options) (st : St) : Options × St :=
  match oldBase? with
  | some ob => ({ o with baseFolder := some ob }, { st with cwd := ob })
  | none => (o, st)

/-- Pointer extraction of `getRefSchema` (lines 83-92): if the reference
string carries a `#` fragment, look the fragment up in the resolved document
and keep it only when truthy; otherwise the whole document is the new
value. -/
def extractNewVal (refVal : String) (loaderValue : J) : Option J :=
  if (splitC '#' refVal).length ≥ 2 then
    let refPath := ((splitC '#' refVal).get? 1).getD ""
    match getRefPathValue loaderValue refPath with
    | some rv => if jsTruthy rv then some rv else none
    | none => none
  else some loaderValue

mutual

/-- `derefSchema` (lines 209-255): static cycle pass, then the entry checks
on `state.circular` / `state.error`, then the traversal. -/
def derefSchema (fuel : Nat) (schema : J) (o : Options) (st : St) (c : Cache) (env : Env) :
    Option (Except Err J × Options × St × Cache) :=
  match fuel with
  | 0 => none
  | fuel + 1 =>
    match checkLocalCircular schema with
    | some e => some (.error e, o, st, c)
    | none =>
      if st.circular then some (.error (.circularRefs st.circularRefs), o, st, c)
      else
        match st.error with
        | some e => some (.error e, o, st, c)
        | none =>
            match visitNode fuel schema [] schema o st c env with
            | some (root, o1, st1, c1) => some (.ok root, o1, st1, c1)
            | none => none

/-- The `traverse(schema).forEach` callback (lines 221-254) applied to the
node at path `p` of the working document `root` (the node is the value at
that path).  Reference nodes are classified, checked against history,
resolved and substituted; the traversal then descends. -/
def visitNode (fuel : Nat) (root : J) (p : List String) (node : J)
    (o : Options) (st : St) (c : Cache) (env : Env) :
    Option (J × Options × St × Cache) :=
  match fuel with
  | 0 => none
  | fuel + 1 =>
    match refValue? node with
    | none => visitChildren fuel root p node o st c env
    | some refVal =>
      let refType := getRefType refVal
      match addToHistory st refType refVal with
      | (false, st1) =>
          let crefs := st1.circularRefs ++ [refVal]
          let st2 := { st1 with circular := true, circularRefs := crefs,
                                error := some (.circularRefs crefs),
                                events := Event.errorSet :: Event.circularSet :: st1.events }
          some (root, o, st2, c)
      | (true, st1) =>
          let st2 := setCurrent st1 refType refVal
          match getRefSchema fuel refVal refType root o st2 c env with
          | none => none
          | some (newVal?, o2, st3, c2) =>
            let st4 := { st3 with history := st3.history.dropLast }
            match newVal? with
            | none =>
                let st5 := if st4.missing.contains refVal then st4
                           else { st4 with missing := st4.missing ++ [refVal] }
                if o2.failOnMissing then
                  let st6 := { st5 with error := some (.missingRef refVal),
                                        events := Event.errorSet :: st5.events }
                  some (root, o2, st6, c2)
                else
                  visitChildren fuel root p node o2 st5 c2 env
            | some v =>
                let root2 := setAtPath root p v
                let st5 := { st4 with missing := st4.missing.erase refVal,
                                      events := Event.subst refVal :: st4.events }
                visitChildren fuel root2 p v o2 st5 c2 env

/-- Depth-first descent into the children of the node at path `p`. -/
def visitChildren (fuel : Nat) (root : J) (p : List String) (node : J)
    (o : Options) (st : St) (c : Cache) (env : Env) :
    Option (J × Options × St × Cache) :=
  match fuel with
  | 0 => none
  | fuel + 1 =>
    match node with
    | .obj kvs => visitFields fuel root p kvs o st c env
    | .arr xs => visitElems fuel root p 0 xs o st c env
    | _ => some (root, o, st, c)

/-- Visit object fields in key order, threading the working document and
state. -/
def visitFields (fuel : Nat) (root : J) (p : List String) (kvs : List (String × J))
    (o : Options) (st : St) (c : Cache) (env : Env) :
    Option (J × Options × St × Cache) :=
  match fuel with
  | 0 => none
  | fuel + 1 =>
    match kvs with
    | [] => some (root, o, st, c)
    | (k, v) :: rest =>
        match visitNode fuel root (p ++ [k]) v o st c env with
        | none => none
        | some (root1, o1, st1, c1) => visitFields fuel root1 p rest o1 st1 c1 env

/-- Visit array elements in index order. -/
def visitElems (fuel : Nat) (root : J) (p : List String) (i : Nat) (xs : List J)
    (o : Options) (st : St) (c : Cache) (env : Env) :
    Option (J × Options × St × Cache) :=
  match fuel with
  | 0 => none
  | fuel + 1 =>
    match xs with
    | [] => some (root, o, st, c)
    | x :: rest =>
        match visitNode fuel root (p ++ [natToStr i]) x o st c env with
        | none => none
        | some (root1, o1, st1, c1) => visitElems fuel root1 p (i + 1) rest o1 st1 c1 env

/-- `getRefSchema` (lines 35-99): local references resolve against the
document being traversed (`parent`); file references consult the cache, else
invoke the loader, temporarily retarget the base folder for nested
directories, recursively resolve the loaded document, store the result in the
cache and extract the pointer fragment; unsupported kinds yield nothing. -/
def getRefSchema (fuel : Nat) (refVal : String) (refType : RefType) (parent : J)
    (o : Options) (st : St) (c : Cache) (env : Env) :
    Option (Option J × Options × St × Cache) :=
  match fuel with
  | 0 => none
  | fuel + 1 =>
    match refType with
    | .localRef => some (getRefPathValue parent refVal, o, st, c)
    | .unsupported => some (none, o, st, c)
    | .file =>
        let filePath := getRefFilePath refVal
        let full := if isAbsolute filePath then filePath else pathResolve st.cwd filePath
        match alookup c full with
        | some v => some (extractNewVal refVal v, o, st, c)
        | none =>
            let st1 := { st with events := Event.loaderCall full (o.baseFolder.getD "") :: st.events }
            match fileLoader refVal o env with
            | none => some (none, o, st1, c)
            | some raw =>
              if jsTruthy raw then
                match pushBase o st1 filePath with
                | (oldBase?, o2, st2) =>
                  match derefSchema fuel raw o2 st2 c env with
                  | none => none
                  | some (r, o3, st3, c3) =>
                    let lv : J := match r with | .ok v => v | .error e => .errv (errMsg e)
                    match popBase oldBase? o3 st3 with
                    | (o4, st4) =>
                      if jsTruthy lv then
                        match alookup c3 full with
                        | some _ => some (extractNewVal refVal lv, o4, st4, c3)
                        | none =>
                            some (extractNewVal refVal lv, o4,
                                  { st4 with events := Event.cacheStore full :: st4.events },
                                  (full, lv) :: c3)
                      else some (none, o4, st4, c3)
              else some (none, o, st1, c)

end

/-- `deref` (lines 267-301): apply option defaults (mutating the caller's
options object), compute the working directory and the root fingerprint,
clear the process-wide cache, run `derefSchema`, and surface `state.error`
when the traversal itself returned a plain document.  The `cache0` argument
is the process-wide cache left over from earlier calls; the source resets it
(`cache = {}`, line 294) before any resolution, which is why `cache0` is
never consulted. -/
def deref (env : Env) (fuel : Nat) (schema : J) (options : Options) (_cache0 : Cache) :
    Option (Except Err J × Options × St × Cache) :=
  let o := { options with baseFolder := some (options.baseFolder.getD processCwd) }
  let bf := o.baseFolder.getD processCwd
  let cwd := if isAbsolute bf then bf else pathResolve processCwd bf
  let st0 : St := { circular := false, circularRefs := [], cwd := cwd, missing := [],
                    history := [], current := md5 (stringify schema), error := none,
                    events := [] }
  match derefSchema fuel schema o st0 [] env with
  | none => none
  | some (r, o', st', c') =>
      match r with
      | .error e => some (.error e, o', st', c')
      | .ok v =>
          match st'.error with
          | some e => some (.error e, o', st', c')
          | none => some (.ok v, o', st', c')


/-! ### Derived definitions used by the verification statements -/

/-- A bare reference node `{"$ref": s}`. -/
def refNode (s : String) : J := .obj [("$ref", .str s)]

/-- Options as a caller passes them with no settings at all. -/
def defaultOpts : Options := { baseFolder := none, failOnMissing := false }

/-- Options with strict-on-missing enabled. -/
def strictOpts : Options := { baseFolder := none, failOnMissing := true }

/-- No loader call for a canonical path ever happens after that path's
resolved content was stored in the cache.  The event list is newest-first, so
for each `loaderCall p` event the rest of the list is its past. -/
def noCAS : List Event → Bool
  | [] => true
  | .loaderCall p _ :: rest => !(decide ((Event.cacheStore p) ∈ rest)) && noCAS rest
  | _ :: rest => noCAS rest

/-- The cache-store events recorded so far are reflected in the cache: this
ties the ghost log to the cache contents during a run. -/
def Inv (evs : List Event) (c : Cache) : Prop :=
  noCAS evs = true ∧ ∀ p, (Event.cacheStore p) ∈ evs → (alookup c p).isSome = true

/-- Some substitution event has a `circularSet` event in its past (the event
list is newest-first). -/
def substAfterCircular : List Event → Bool
  | [] => false
  | .subst _ :: rest => decide (Event.circularSet ∈ rest) || substAfterCircular rest
  | _ :: rest => substAfterCircular rest

/-- Chain document: `a` points at `b`, whose value is itself a reference
node pointing at `c`. -/
def docChain : J := .obj [("a", refNode "#/b"), ("b", refNode "#/c"), ("c", .num 1)]

/-- Family of documents whose reference target contains a further nested
local reference to a plain (`$ref`-free) leaf. -/
def famDoc (n : Int) (s : String) : J :=
  .obj [("a", refNode "#/b"), ("b", .obj [("c", refNode "#/d")]),
        ("d", .obj [("k", .num n), ("l", .str s)])]

/-- The fully flattened result of `famDoc`. -/
def famExpected (n : Int) (s : String) : J :=
  .obj [("a", .obj [("c", .obj [("k", .num n), ("l", .str s)])]),
        ("b", .obj [("c", .obj [("k", .num n), ("l", .str s)])]),
        ("d", .obj [("k", .num n), ("l", .str s)])]

/-- Document where `b` (a reference node with a sibling key `x`) is replaced
before `a`'s pointer `#/b/x` is resolved. -/
def docShadow : J :=
  .obj [("b", .obj [("$ref", .str "#/c"), ("x", .num 5)]),
        ("a", refNode "#/b/x"), ("c", .num 7)]

/-- The same bindings as `docShadow` with `a` listed first. -/
def docShadowSwapped : J :=
  .obj [("a", refNode "#/b/x"),
        ("b", .obj [("$ref", .str "#/c"), ("x", .num 5)]), ("c", .num 7)]

/-- A document whose only reference is an unresolvable local pointer. -/
def docMissing : J := refNode "#/missing/path"

/-- The two-key circular document of the spec's test list. -/
def docPair : J := .obj [("a", refNode "#/b"), ("b", refNode "#/a")]

/-- An ancestor node referring to one of its own descendants. -/
def docAncestor : J := .obj [("a", .obj [("$ref", .str "#/a/b"), ("b", .num 1)])]

/-- Root document for the dynamic-circular run: `r` extracts `/z` out of
`b.json`, and `s`/`t` are resolved afterwards. -/
def docCirc : J := .obj [("r", refNode "b.json#/z"), ("s", refNode "#/t"), ("t", .num 5)]

/-- Filesystem for `docCirc`: `b.json` references itself (a dynamic cycle)
and also a local pointer. -/
def envCirc : Env :=
  [("/cwd/b.json", .obj [("y", refNode "b.json"), ("z", refNode "#/w"), ("w", .num 9)])]

/-- Two references to the same nonexistent file. -/
def docMissFile : J := .obj [("a", refNode "nope.json"), ("b", refNode "nope.json")]

/-- Two references to the same existing file. -/
def docSameFile : J := .obj [("a", refNode "ok.json"), ("b", refNode "ok.json")]

/-- Filesystem for `docSameFile`. -/
def envSameFile : Env := [("/cwd/ok.json", .obj [("v", .num 3)])]

/-- A reference into a nested folder whose file references a sibling file by
a path relative to that folder. -/
def docNested : J := .obj [("r", refNode "sub/inner.json")]

/-- Filesystem for `docNested`. -/
def envNested : Env :=
  [("/cwd/sub/inner.json", .obj [("x", refNode "leaf.json")]),
   ("/cwd/sub/leaf.json", .obj [("v", .num 42)])]

/-! ### General lemmas about the traversal -/

/-- Every document has positive size. -/
theorem sizeOfJ_pos (j : J) : 0 < sizeOf j := by
  cases j <;> simp_arith

/-- Every list has positive size. -/
theorem sizeOfList_pos {α : Type} [SizeOf α] (l : List α) : 0 < sizeOf l := by
  cases l <;> simp_arith

/-- An object whose fields are `$ref`-free has no `$ref` binding. -/
theorem lookupKey_ref_none (kvs : List (String × J)) (h : noRefsFields kvs = true) :
    lookupKey kvs "$ref" = none := by
  induction kvs with
  | nil => rfl
  | cons kv rest ih =>
      obtain ⟨k, v⟩ := kv
      simp only [noRefsFields, Bool.and_eq_true, bne_iff_ne, ne_eq] at h
      obtain ⟨⟨hk, _⟩, hrest⟩ := h
      simp only [lookupKey, beq_iff_eq, if_neg hk]
      exact ih hrest

/-- A `$ref`-free node is not a reference node. -/
theorem refValue?_none (node : J) (h : noRefs node = true) : refValue? node = none := by
  cases node <;> simp only [refValue?]
  rw [lookupKey_ref_none _ (by simpa [noRefs] using h)]

/-- A `$ref`-free document contributes nothing to the static local-reference
scan. -/
theorem collectLocals_nil :
    ∀ (p : List String) (j : J), noRefs j = true → collectLocals p j = [] := by
  intro p j
  refine collectLocals.induct
    (fun p j => noRefs j = true → collectLocals p j = [])
    (fun p i xs => noRefsArr xs = true → collectLocalsArr p i xs = [])
    (fun p kvs => noRefsFields kvs = true → collectLocalsFields p kvs = [])
    ?_ ?_ ?_ ?_ ?_ ?_ ?_ ?_ ?_ ?_ ?_ p j
  · intro p kvs ih h
    simp only [noRefs] at h
    simp only [collectLocals, refValue?_none (.obj kvs) (by simpa [noRefs] using h), ih h,
               List.append_nil]
  · intro p xs ih h
    simp only [noRefs] at h
    simpa only [collectLocals] using ih h
  · intro p _; rfl
  · intro p b _; rfl
  · intro p n _; rfl
  · intro p s _; rfl
  · intro p msg _; rfl
  · intro p i; intro _; rfl
  · intro p i x xs ihx ihxs h
    simp only [noRefsArr, Bool.and_eq_true] at h
    simp only [collectLocalsArr, ihx h.1, ihxs h.2, List.append_nil]
  · intro p; intro _; rfl
  · intro p k v rest ihv ihrest h
    simp only [noRefsFields, Bool.and_eq_true] at h
    simp only [collectLocalsFields, ihv h.1.2, ihrest h.2, List.append_nil]

/-- A `$ref`-free document passes the static cycle pass. -/
theorem checkLocalCircular_none (j : J) (h : noRefs j = true) :
    checkLocalCircular j = none := by
  simp [checkLocalCircular, collectLocals_nil [] j h]

/-- Traversal of a `$ref`-free subtree changes nothing: the working document,
options, state and cache all come back unchanged (given enough fuel for the
subtree's depth). -/
theorem visitNoop : ∀ fuel : Nat,
    (∀ root p node o st c env, noRefs node = true → sizeOf node + 1 ≤ fuel →
        visitNode fuel root p node o st c env = some (root, o, st, c)) ∧
    (∀ root p node o st c env, noRefs node = true → sizeOf node ≤ fuel →
        visitChildren fuel root p node o st c env = some (root, o, st, c)) ∧
    (∀ root p kvs o st c env, noRefsFields kvs = true → sizeOf kvs ≤ fuel →
        visitFields fuel root p kvs o st c env = some (root, o, st, c)) ∧
    (∀ root p i xs o st c env, noRefsArr xs = true → sizeOf xs ≤ fuel →
        visitElems fuel root p i xs o st c env = some (root, o, st, c)) := by
  intro fuel
  induction fuel with
  | zero =>
      refine ⟨?_, ?_, ?_, ?_⟩
      · intro root p node o st c env _ hb
        exact absurd hb (by have := sizeOfJ_pos node; omega)
      · intro root p node o st c env _ hb
        exact absurd hb (by have := sizeOfJ_pos node; omega)
      · intro root p kvs o st c env _ hb
        exact absurd hb (by have := sizeOfList_pos kvs; omega)
      · intro root p i xs o st c env _ hb
        exact absurd hb (by have := sizeOfList_pos xs; omega)
  | succ n ih =>
      obtain ⟨ihN, ihC, ihF, ihE⟩ := ih
      refine ⟨?_, ?_, ?_, ?_⟩
      · intro root p node o st c env h hb
        simp only [visitNode, refValue?_none node h]
        exact ihC root p node o st c env h (by omega)
      · intro root p node o st c env h hb
        cases node with
        | obj kvs =>
            simp only [visitChildren]
            exact ihF root p kvs o st c env (by simpa [noRefs] using h)
              (by simp only [J.obj.sizeOf_spec] at hb; omega)
        | arr xs =>
            simp only [visitChildren]
            exact ihE root p 0 xs o st c env (by simpa [noRefs] using h)
              (by simp only [J.arr.sizeOf_spec] at hb; omega)
        | null => rfl
        | bool b => rfl
        | num m => rfl
        | str s => rfl
        | errv m => rfl
      · intro root p kvs o st c env h hb
        cases kvs with
        | nil => rfl
        | cons kv rest =>
            obtain ⟨k, v⟩ := kv
            simp only [noRefsFields, Bool.and_eq_true] at h
            have hv : sizeOf v + 1 ≤ n := by
              simp only [List.cons.sizeOf_spec, Prod.mk.sizeOf_spec] at hb
              omega
            have hrest : sizeOf rest ≤ n := by
              simp only [List.cons.sizeOf_spec, Prod.mk.sizeOf_spec] at hb
              omega
            simp only [visitFields, ihN root (p ++ [k]) v o st c env h.1.2 hv]
            exact ihF root p rest o st c env h.2 hrest
      · intro root p i xs o st c env h hb
        cases xs with
        | nil => rfl
        | cons x rest =>
            simp only [noRefsArr, Bool.and_eq_true] at h
            have hx : sizeOf x + 1 ≤ n := by
              simp only [List.cons.sizeOf_spec] at hb
              have := sizeOfList_pos rest
              omega
            have hrest : sizeOf rest ≤ n := by
              simp only [List.cons.sizeOf_spec] at hb
              omega
            simp only [visitElems, ihN root (p ++ [natToStr i]) x o st c env h.1 hx]
            exact ihE root p (i + 1) rest o st c env h.2 hrest

/-- `derefSchema` on a `$ref`-free document (with a clean state) returns the
document unchanged. -/
theorem derefSchema_noop (fuel : Nat) (schema : J) (o : Options) (st : St) (c : Cache)
    (env : Env) (h : noRefs schema = true) (hc : st.circular = false)
    (he : st.error = none) (hb : sizeOf schema + 2 ≤ fuel) :
    derefSchema fuel schema o st c env = some (.ok schema, o, st, c) := by
  cases fuel with
  | zero => exact absurd hb (by have := sizeOfJ_pos schema; omega)
  | succ n =>
      simp only [derefSchema, checkLocalCircular_none schema h, hc, he]
      rw [(visitNoop n).1 schema [] schema o st c env h (by omega)]
      rfl

/-- Scanning the local-reference list flags some element as soon as any
element's resolved target path (with trailing slash) occurs inside its own
tree path (with trailing slash), whatever the accumulated DAG is. -/
theorem findCirc_isSome (locals : List LocalRef) :
    ∀ edges, (∃ l ∈ locals, isSubstr ((strDrop l.dst 2) ++ "/") (l.src ++ "/") = true) →
      (findCirc edges locals).isSome = true := by
  induction locals with
  | nil =>
      intro edges h
      obtain ⟨l, hl, _⟩ := h
      cases hl
  | cons hd rest ih =>
      intro edges h
      simp only [findCirc]
      cases hcy : createsCycle edges (hd.src ++ "/") ((strDrop hd.dst 2) ++ "/") with
      | true => simp [hcy]
      | false =>
          cases hsub : isSubstr ((strDrop hd.dst 2) ++ "/") (hd.src ++ "/") with
          | true => simp [hcy, hsub]
          | false =>
              simp only [hcy, hsub, Bool.false_eq_true, if_false]
              obtain ⟨l, hl, hs⟩ := h
              cases hl with
              | head => exact absurd hs (by simp [hsub])
              | tail _ hmem => exact ih _ ⟨l, hmem, hs⟩

/-- A substitution event never disturbs the cache invariant. -/
theorem inv_subst {evs : List Event} {c : Cache} (r : String) (h : Inv evs c) :
    Inv (Event.subst r :: evs) c := by
  obtain ⟨h1, h2⟩ := h
  refine ⟨by simpa [noCAS], ?_⟩
  intro p hp
  cases hp with
  | tail _ hmem => exact h2 p hmem

/-- Setting the circular flag never disturbs the cache invariant. -/
theorem inv_circularSet {evs : List Event} {c : Cache} (h : Inv evs c) :
    Inv (Event.circularSet :: evs) c := by
  obtain ⟨h1, h2⟩ := h
  refine ⟨by simpa [noCAS], ?_⟩
  intro p hp
  cases hp with
  | tail _ hmem => exact h2 p hmem

/-- Recording the terminal error never disturbs the cache invariant. -/
theorem inv_errorSet {evs : List Event} {c : Cache} (h : Inv evs c) :
    Inv (Event.errorSet :: evs) c := by
  obtain ⟨h1, h2⟩ := h
  refine ⟨by simpa [noCAS], ?_⟩
  intro p hp
  cases hp with
  | tail _ hmem => exact h2 p hmem

/-- A loader call is only recorded while the cache has no entry for the
path, so it cannot follow that path's cache store. -/
theorem inv_loaderCall {evs : List Event} {c : Cache} {p : String} (b : String)
    (hnone : alookup c p = none) (h : Inv evs c) :
    Inv (Event.loaderCall p b :: evs) c := by
  obtain ⟨h1, h2⟩ := h
  have hnotmem : ¬ (Event.cacheStore p) ∈ evs := by
    intro hmem
    have := h2 p hmem
    rw [hnone] at this
    cases this
  refine ⟨by simp [noCAS, h1, hnotmem], ?_⟩
  intro q hq
  cases hq with
  | tail _ hmem => exact h2 q hmem

/-- Storing a freshly resolved document records the store event and inserts
the entry, preserving the invariant. -/
theorem inv_cacheStore {evs : List Event} {c : Cache} (p : String) (v : J)
    (h : Inv evs c) : Inv (Event.cacheStore p :: evs) ((p, v) :: c) := by
  obtain ⟨h1, h2⟩ := h
  refine ⟨by simpa [noCAS], ?_⟩
  intro q hq
  simp only [alookup]
  by_cases hpq : p == q
  · simp [hpq]
  · simp only [hpq, if_false]
    cases hq with
    | head => simp at hpq
    | tail _ hmem => exact h2 q hmem

/-- Pushing a visitation marker never changes the event log. -/
theorem addToHistory_events (st : St) (t : RefType) (v : String) :
    ((addToHistory st t v).2).events = st.events := by
  cases t <;> simp only [addToHistory] <;> (repeat' split) <;> rfl

/-- Retargeting the current document identity never changes the event log. -/
theorem setCurrent_events (st : St) (t : RefType) (v : String) :
    (setCurrent st t v).events = st.events := by
  cases t <;> simp only [setCurrent] <;> (repeat' split) <;> rfl

/-- Adjusting the base folder never changes the event log. -/
theorem pushBase_events (o : Options) (st : St) (f : String) :
    ((pushBase o st f).2.2).events = st.events := by
  simp only [pushBase]
  by_cases h1 : (if pathDirname f == "." then "" else pathDirname f) = ""
  · rw [if_pos h1]
  · rw [if_neg h1]

/-- Restoring the base folder never changes the event log. -/
theorem popBase_events (ob : Option String) (o : Options) (st : St) :
    ((popBase ob o st).2).events = st.events := by
  cases ob <;> rfl

/-- Fuel induction: every engine function preserves the cache invariant, so
within one call the loader is never invoked for a path whose resolved content
is already stored. -/
theorem invPreserved : ∀ fuel : Nat,
    (∀ schema o st c env out, Inv st.events c →
        derefSchema fuel schema o st c env = some out → Inv out.2.2.1.events out.2.2.2) ∧
    (∀ root p node o st c env out, Inv st.events c →
        visitNode fuel root p node o st c env = some out → Inv out.2.2.1.events out.2.2.2) ∧
    (∀ root p node o st c env out, Inv st.events c →
        visitChildren fuel root p node o st c env = some out → Inv out.2.2.1.events out.2.2.2) ∧
    (∀ root p kvs o st c env out, Inv st.events c →
        visitFields fuel root p kvs o st c env = some out → Inv out.2.2.1.events out.2.2.2) ∧
    (∀ root p i xs o st c env out, Inv st.events c →
        visitElems fuel root p i xs o st c env = some out → Inv out.2.2.1.events out.2.2.2) ∧
    (∀ refVal refType parent o st c env out, Inv st.events c →
        getRefSchema fuel refVal refType parent o st c env = some out → Inv out.2.2.1.events out.2.2.2) := by
  intro fuel
  induction fuel with
  | zero =>
      refine ⟨?_, ?_, ?_, ?_, ?_, ?_⟩
      · intros; rename_i heq; simp only [derefSchema] at heq; cases heq
      · intros; rename_i heq; simp only [visitNode] at heq; cases heq
      · intros; rename_i heq; simp only [visitChildren] at heq; cases heq
      · intros; rename_i heq; simp only [visitFields] at heq; cases heq
      · intros; rename_i heq; simp only [visitElems] at heq; cases heq
      · intros; rename_i heq; simp only [getRefSchema] at heq; cases heq
  | succ n ih =>
      obtain ⟨ihD, ihN, ihC, ihF, ihE, ihG⟩ := ih
      refine ⟨?_, ?_, ?_, ?_, ?_, ?_⟩
      · -- derefSchema
        intro schema o st c env out hInv heq
        simp only [derefSchema] at heq
        split at heq
        · cases heq; exact hInv
        · split at heq
          · cases heq; exact hInv
          · split at heq
            · cases heq; exact hInv
            · split at heq
              · rename_i hvn
                cases heq
                exact ihN _ _ _ _ _ _ _ _ hInv hvn
              · cases heq
      · -- visitNode
        intro root p node o st c env out hInv heq
        simp only [visitNode] at heq
        split at heq
        · exact ihC _ _ _ _ _ _ _ _ hInv heq
        · rename_i refVal hrv
          split at heq
          · rename_i st1 hAdd
            cases heq
            have hev : st1.events = st.events := by
              have h0 := addToHistory_events st (getRefType refVal) refVal
              rw [hAdd] at h0
              exact h0
            refine inv_errorSet (inv_circularSet ?_)
            rw [hev]
            exact hInv
          · rename_i st1 hAdd
            have hev : st1.events = st.events := by
              have h0 := addToHistory_events st (getRefType refVal) refVal
              rw [hAdd] at h0
              exact h0
            split at heq
            · cases heq
            · rename_i newVal? o2 st3 c2 hGot
              have hInv3 : Inv st3.events c2 := by
                refine ihG _ _ _ _ _ _ _ _ ?_ hGot
                have hev2 := setCurrent_events st1 (getRefType refVal) refVal
                rw [hev2, hev]
                exact hInv
              split at heq
              · -- missing
                split at heq
                · cases heq
                  refine inv_errorSet ?_
                  split
                  · exact hInv3
                  · exact hInv3
                · refine ihC _ _ _ _ _ _ _ _ ?_ heq
                  split
                  · exact hInv3
                  · exact hInv3
              · -- substitution
                refine ihC _ _ _ _ _ _ _ _ ?_ heq
                exact inv_subst _ hInv3
      · -- visitChildren
        intro root p node o st c env out hInv heq
        simp only [visitChildren] at heq
        split at heq
        · exact ihF _ _ _ _ _ _ _ _ hInv heq
        · exact ihE _ _ _ _ _ _ _ _ _ hInv heq
        · cases heq; exact hInv
      · -- visitFields
        intro root p kvs o st c env out hInv heq
        simp only [visitFields] at heq
        split at heq
        · cases heq; exact hInv
        · split at heq
          · cases heq
          · rename_i root1 o1 st1 c1 hvn
            exact ihF _ _ _ _ _ _ _ _ (ihN _ _ _ _ _ _ _ _ hInv hvn) heq
      · -- visitElems
        intro root p i xs o st c env out hInv heq
        simp only [visitElems] at heq
        split at heq
        · cases heq; exact hInv
        · split at heq
          · cases heq
          · rename_i root1 o1 st1 c1 hvn
            exact ihE _ _ _ _ _ _ _ _ _ (ihN _ _ _ _ _ _ _ _ hInv hvn) heq
      · -- getRefSchema
        intro refVal refType parent o st c env out hInv heq
        simp only [getRefSchema] at heq
        split at heq
        · cases heq; exact hInv
        · cases heq; exact hInv
        · split at heq
          · cases heq; exact hInv
          · rename_i hmiss
            split at heq
            · cases heq
              exact inv_loaderCall _ hmiss hInv
            · rename_i raw hload
              split at heq
              · rename_i hjs
                split at heq
                · cases heq
                · rename_i r o3 st3 c3 hDeref
                  have hInvD : Inv st3.events c3 := by
                    refine ihD _ _ _ _ _ _ ?_ hDeref
                    rw [pushBase_events]
                    exact inv_loaderCall _ hmiss hInv
                  split at heq
                  · split at heq
                    · cases heq
                      refine ?_
                      rw [popBase_events]
                      exact hInvD
                    · cases heq
                      refine ?_
                      rw [popBase_events]
                      exact inv_cacheStore _ _ hInvD
                  · cases heq
                    refine ?_
                    rw [popBase_events]
                    exact hInvD
              · rename_i hjs
                cases heq
                exact inv_loaderCall _ hmiss hInv

/-! ### Claim theorems -/

/-- C1, counterexample: the chain document `{"a": {"$ref": "#/b"},
"b": {"$ref": "#/c"}, "c": 1}` is accepted by the static cycle pass, the
target of `"#/b"` itself contains a further local reference, yet `deref`
returns a document that still contains a `$ref` key: a substituted value
that is itself a reference node is never re-processed. -/
theorem c1_counterexample :
    checkLocalCircular docChain = none ∧
    getRefPathValue docChain "#/b" = some (refNode "#/c") ∧
    hasRefKey (refNode "#/c") = true ∧
    (deref [] 20 docChain defaultOpts []).map (fun x => x.1)
      = some (.ok (.obj [("a", refNode "#/c"), ("b", .num 1), ("c", .num 1)])) ∧
    hasRefKey (.obj [("a", refNode "#/c"), ("b", .num 1), ("c", .num 1)]) = true := by
  refine ⟨rfl, rfl, rfl, ?_, rfl⟩
  simp [deref, derefSchema, visitNode, visitChildren, visitFields, visitElems, getRefSchema,
        checkLocalCircular, collectLocals, collectLocalsFields, collectLocalsArr, refValue?,
        lookupKey, getRefType, getRefFilePath, getRefPathValue, walkPath, strStarts, strEnds,
        strDrop, splitC, splitCList, listStarts, listSub, isSubstr, strToLower, lowerChar,
        parseNat?, parseNatList, isAbsolute, pathResolve, pathDirname, processCwd, stringify,
        stringifyArr, stringifyFields, md5, findCirc, createsCycle, reach, addToHistory,
        setCurrent, fileLoader, errMsg, setAtPath, setAtPathFields, setAtPathIdx, extractNewVal,
        alookup, jsTruthy, joinStrs, digitChar, natToStrGo, natToStr, intToStr, pushBase,
        popBase, refNode, defaultOpts, strictOpts, docChain]

/-- C1, amended: when a local reference's target contains further local
references strictly inside it and those nested references resolve to plain
(`$ref`-free) values, the traversal descends into the substituted value and
flattens it fully: for every leaf object `{"k": n, "l": s}`, dereferencing
`famDoc n s` yields the fully flattened `famExpected n s`, which contains no
`$ref` key anywhere. -/
theorem c1_amended_flattening (n : Int) (s : String) :
    (deref [] 20 (famDoc n s) defaultOpts []).map (fun x => x.1)
      = some (.ok (famExpected n s)) ∧
    hasRefKey (famExpected n s) = false := by
  constructor
  · simp [deref, derefSchema, visitNode, visitChildren, visitFields, visitElems, getRefSchema,
        checkLocalCircular, collectLocals, collectLocalsFields, collectLocalsArr, refValue?,
        lookupKey, getRefType, getRefFilePath, getRefPathValue, walkPath, strStarts, strEnds,
        strDrop, splitC, splitCList, listStarts, listSub, isSubstr, strToLower, lowerChar,
        parseNat?, parseNatList, isAbsolute, pathResolve, pathDirname, processCwd, stringify,
        stringifyArr, stringifyFields, md5, findCirc, createsCycle, reach, addToHistory,
        setCurrent, fileLoader, errMsg, setAtPath, setAtPathFields, setAtPathIdx, extractNewVal,
        alookup, jsTruthy, joinStrs, digitChar, natToStrGo, natToStr, intToStr, pushBase,
        popBase, refNode, defaultOpts, strictOpts, famDoc, famExpected]
  · simp [famExpected, hasRefKey, noRefs, noRefsFields, noRefsArr, refNode]

/-- C2, counterexample: in `docShadow` the pointer `"#/b/x"` resolves to `5`
in the original root document, but because `b` was already replaced by `7`
in the working copy before `a` was visited, the engine fails to resolve the
pointer: the node is left intact and the reference is reported missing, so
the substituted value does depend on earlier replacements. -/
theorem c2_counterexample :
    getRefPathValue docShadow "#/b/x" = some (.num 5) ∧
    (deref [] 20 docShadow defaultOpts []).map (fun x => (x.1, x.2.2.1.missing))
      = some (.ok (.obj [("b", .num 7), ("a", refNode "#/b/x"), ("c", .num 7)]),
              ["#/b/x"]) := by
  refine ⟨rfl, ?_⟩
  simp [deref, derefSchema, visitNode, visitChildren, visitFields, visitElems, getRefSchema,
        checkLocalCircular, collectLocals, collectLocalsFields, collectLocalsArr, refValue?,
        lookupKey, getRefType, getRefFilePath, getRefPathValue, walkPath, strStarts, strEnds,
        strDrop, splitC, splitCList, listStarts, listSub, isSubstr, strToLower, lowerChar,
        parseNat?, parseNatList, isAbsolute, pathResolve, pathDirname, processCwd, stringify,
        stringifyArr, stringifyFields, md5, findCirc, createsCycle, reach, addToHistory,
        setCurrent, fileLoader, errMsg, setAtPath, setAtPathFields, setAtPathIdx, extractNewVal,
        alookup, jsTruthy, joinStrs, digitChar, natToStrGo, natToStr, intToStr, pushBase,
        popBase, refNode, defaultOpts, strictOpts, docShadow]

/-- C2, amended: local pointers are resolved against the mutable working
copy, in which earlier reference nodes may already have been replaced, so the
value substituted for a local pointer depends on which references were
replaced before it: the same bindings in a different key order give a
different result at key `a`. -/
theorem c2_amended_order_dependent :
    (deref [] 20 docShadow defaultOpts []).map (fun x => x.1)
      = some (.ok (.obj [("b", .num 7), ("a", refNode "#/b/x"), ("c", .num 7)])) ∧
    (deref [] 20 docShadowSwapped defaultOpts []).map (fun x => x.1)
      = some (.ok (.obj [("a", .num 5), ("b", .num 7), ("c", .num 7)])) := by
  constructor
  · simp [deref, derefSchema, visitNode, visitChildren, visitFields, visitElems, getRefSchema,
        checkLocalCircular, collectLocals, collectLocalsFields, collectLocalsArr, refValue?,
        lookupKey, getRefType, getRefFilePath, getRefPathValue, walkPath, strStarts, strEnds,
        strDrop, splitC, splitCList, listStarts, listSub, isSubstr, strToLower, lowerChar,
        parseNat?, parseNatList, isAbsolute, pathResolve, pathDirname, processCwd, stringify,
        stringifyArr, stringifyFields, md5, findCirc, createsCycle, reach, addToHistory,
        setCurrent, fileLoader, errMsg, setAtPath, setAtPathFields, setAtPathIdx, extractNewVal,
        alookup, jsTruthy, joinStrs, digitChar, natToStrGo, natToStr, intToStr, pushBase,
        popBase, refNode, defaultOpts, strictOpts, docShadow]
  · simp [deref, derefSchema, visitNode, visitChildren, visitFields, visitElems, getRefSchema,
        checkLocalCircular, collectLocals, collectLocalsFields, collectLocalsArr, refValue?,
        lookupKey, getRefType, getRefFilePath, getRefPathValue, walkPath, strStarts, strEnds,
        strDrop, splitC, splitCList, listStarts, listSub, isSubstr, strToLower, lowerChar,
        parseNat?, parseNatList, isAbsolute, pathResolve, pathDirname, processCwd, stringify,
        stringifyArr, stringifyFields, md5, findCirc, createsCycle, reach, addToHistory,
        setCurrent, fileLoader, errMsg, setAtPath, setAtPathFields, setAtPathIdx, extractNewVal,
        alookup, jsTruthy, joinStrs, digitChar, natToStrGo, natToStr, intToStr, pushBase,
        popBase, refNode, defaultOpts, strictOpts, docShadowSwapped]

/-- C3: for the document `{"$ref": "#/missing/path"}`, `deref` with default
options returns successfully with the reference node left intact and the
reference string recorded in the state's missing-references list, while with
`failOnMissing` it returns the MissingReference error instead. -/
theorem c3_missing_ref_default_and_strict :
    (deref [] 20 docMissing defaultOpts []).map (fun x => (x.1, x.2.2.1.missing))
      = some (.ok docMissing, ["#/missing/path"]) ∧
    (deref [] 20 docMissing strictOpts []).map (fun x => (x.1, x.2.2.1.missing))
      = some (.error (.missingRef "#/missing/path"), ["#/missing/path"]) := by
  constructor
  · simp [deref, derefSchema, visitNode, visitChildren, visitFields, visitElems, getRefSchema,
        checkLocalCircular, collectLocals, collectLocalsFields, collectLocalsArr, refValue?,
        lookupKey, getRefType, getRefFilePath, getRefPathValue, walkPath, strStarts, strEnds,
        strDrop, splitC, splitCList, listStarts, listSub, isSubstr, strToLower, lowerChar,
        parseNat?, parseNatList, isAbsolute, pathResolve, pathDirname, processCwd, stringify,
        stringifyArr, stringifyFields, md5, findCirc, createsCycle, reach, addToHistory,
        setCurrent, fileLoader, errMsg, setAtPath, setAtPathFields, setAtPathIdx, extractNewVal,
        alookup, jsTruthy, joinStrs, digitChar, natToStrGo, natToStr, intToStr, pushBase,
        popBase, refNode, defaultOpts, strictOpts, docMissing]
  · simp [deref, derefSchema, visitNode, visitChildren, visitFields, visitElems, getRefSchema,
        checkLocalCircular, collectLocals, collectLocalsFields, collectLocalsArr, refValue?,
        lookupKey, getRefType, getRefFilePath, getRefPathValue, walkPath, strStarts, strEnds,
        strDrop, splitC, splitCList, listStarts, listSub, isSubstr, strToLower, lowerChar,
        parseNat?, parseNatList, isAbsolute, pathResolve, pathDirname, processCwd, stringify,
        stringifyArr, stringifyFields, md5, findCirc, createsCycle, reach, addToHistory,
        setCurrent, fileLoader, errMsg, setAtPath, setAtPathFields, setAtPathIdx, extractNewVal,
        alookup, jsTruthy, joinStrs, digitChar, natToStrGo, natToStr, intToStr, pushBase,
        popBase, refNode, defaultOpts, strictOpts, docMissing]

/-- C4: `{"a": {"$ref": "#/b"}, "b": {"$ref": "#/a"}}` is rejected by the
static local-cycle pass with a CircularReference error before any resolution
or substitution: the event log and the cache are both empty. -/
theorem c4_two_key_cycle_rejected :
    (deref [] 20 docPair defaultOpts []).map
        (fun x => (x.1, x.2.2.1.events, x.2.2.2))
      = some (.error (.circularSelf "b" "#/a"), [], []) := by
  simp [deref, derefSchema, visitNode, visitChildren, visitFields, visitElems, getRefSchema,
        checkLocalCircular, collectLocals, collectLocalsFields, collectLocalsArr, refValue?,
        lookupKey, getRefType, getRefFilePath, getRefPathValue, walkPath, strStarts, strEnds,
        strDrop, splitC, splitCList, listStarts, listSub, isSubstr, strToLower, lowerChar,
        parseNat?, parseNatList, isAbsolute, pathResolve, pathDirname, processCwd, stringify,
        stringifyArr, stringifyFields, md5, findCirc, createsCycle, reach, addToHistory,
        setCurrent, fileLoader, errMsg, setAtPath, setAtPathFields, setAtPathIdx, extractNewVal,
        alookup, jsTruthy, joinStrs, digitChar, natToStrGo, natToStr, intToStr, pushBase,
        popBase, refNode, defaultOpts, strictOpts, docPair]

/-- C5, counterexample: in the `docCirc`/`envCirc` run the circular flag is
set while resolving `b.json` against itself, yet substitutions keep
happening afterwards (the log contains `subst` events whose past contains
`circularSet`); the call still ends in the CircularReference error. -/
theorem c5_counterexample :
    (deref envCirc 30 docCirc defaultOpts []).map
        (fun x => (x.1, x.2.2.1.circular, substAfterCircular x.2.2.1.events))
      = some (.error (.circularRefs ["b.json"]), true, true) := by
  simp [deref, derefSchema, visitNode, visitChildren, visitFields, visitElems, getRefSchema,
        checkLocalCircular, collectLocals, collectLocalsFields, collectLocalsArr, refValue?,
        lookupKey, getRefType, getRefFilePath, getRefPathValue, walkPath, strStarts, strEnds,
        strDrop, splitC, splitCList, listStarts, listSub, isSubstr, strToLower, lowerChar,
        parseNat?, parseNatList, isAbsolute, pathResolve, pathDirname, processCwd, stringify,
        stringifyArr, stringifyFields, md5, findCirc, createsCycle, reach, addToHistory,
        setCurrent, fileLoader, errMsg, setAtPath, setAtPathFields, setAtPathIdx, extractNewVal,
        alookup, jsTruthy, joinStrs, digitChar, natToStrGo, natToStr, intToStr, pushBase,
        popBase, refNode, defaultOpts, strictOpts, docCirc, envCirc, substAfterCircular]

/-- C5, amended: once `state.circular` or `state.error` is set, any freshly
entered `derefSchema` call (for example for a subsequently loaded document)
aborts immediately, performing no substitution and leaving options, state and
cache untouched: with the circular flag set it returns the CircularReference
error, and with only `state.error` set (e.g. after a `failOnMissing` failure,
source lines 217-218) it returns that stored error; within an already-running
traversal, however, later reference nodes are still substituted (see the C5
counterexample) and the error is returned only at the end. -/
theorem c5_amended_entry_check (fuel : Nat) (schema : J) (o : Options) (st : St)
    (c : Cache) (env : Env) (hf : 0 < fuel) (hchk : checkLocalCircular schema = none) :
    (st.circular = true →
      derefSchema fuel schema o st c env
        = some (.error (.circularRefs st.circularRefs), o, st, c)) ∧
    (st.circular = false → ∀ e : Err, st.error = some e →
      derefSchema fuel schema o st c env = some (.error e, o, st, c)) := by
  cases fuel with
  | zero => omega
  | succ n =>
      constructor
      · intro hcirc
        simp [derefSchema, hchk, hcirc]
      · intro hcirc e herr
        simp [derefSchema, hchk, hcirc, herr]

/-- Witness for the C5 amended theorem at concrete states: one with the
circular flag set, one with only the terminal error set. -/
theorem c5_amended_entry_check_witness :
    (derefSchema 5 (.num 0) defaultOpts
        { circular := true, circularRefs := ["x.json"], cwd := "/cwd", missing := [],
          history := [], current := "id", error := none, events := [] } [] []
      = some (.error (.circularRefs ["x.json"]), defaultOpts,
              { circular := true, circularRefs := ["x.json"], cwd := "/cwd", missing := [],
                history := [], current := "id", error := none, events := [] }, [])) ∧
    (derefSchema 5 (.num 0) defaultOpts
        { circular := false, circularRefs := [], cwd := "/cwd", missing := ["#/a"],
          history := [], current := "id", error := some (.missingRef "#/a"),
          events := [Event.errorSet] } [] []
      = some (.error (.missingRef "#/a"), defaultOpts,
              { circular := false, circularRefs := [], cwd := "/cwd", missing := ["#/a"],
                history := [], current := "id", error := some (.missingRef "#/a"),
                events := [Event.errorSet] }, [])) :=
  ⟨(c5_amended_entry_check 5 (.num 0) defaultOpts _ [] [] (by omega) rfl).1 rfl,
   (c5_amended_entry_check 5 (.num 0) defaultOpts _ [] [] (by omega) rfl).2 rfl
     (.missingRef "#/a") rfl⟩

/-- C6, counterexample: in `docAncestor` the reference node's tree path `a`
is a literal prefix of its resolved pointer path `a/b` (an ancestor
referring to its own descendant), yet the static pass does not reject the
document and `deref` resolves it successfully. -/
theorem c6_counterexample :
    collectLocals [] docAncestor = [⟨"a", "#/a/b"⟩] ∧
    strStarts "a" "a/b" = true ∧
    checkLocalCircular docAncestor = none ∧
    (deref [] 20 docAncestor defaultOpts []).map (fun x => x.1)
      = some (.ok (.obj [("a", .num 1)])) := by
  refine ⟨rfl, rfl, rfl, ?_⟩
  simp [deref, derefSchema, visitNode, visitChildren, visitFields, visitElems, getRefSchema,
        checkLocalCircular, collectLocals, collectLocalsFields, collectLocalsArr, refValue?,
        lookupKey, getRefType, getRefFilePath, getRefPathValue, walkPath, strStarts, strEnds,
        strDrop, splitC, splitCList, listStarts, listSub, isSubstr, strToLower, lowerChar,
        parseNat?, parseNatList, isAbsolute, pathResolve, pathDirname, processCwd, stringify,
        stringifyArr, stringifyFields, md5, findCirc, createsCycle, reach, addToHistory,
        setCurrent, fileLoader, errMsg, setAtPath, setAtPathFields, setAtPathIdx, extractNewVal,
        alookup, jsTruthy, joinStrs, digitChar, natToStrGo, natToStr, intToStr, pushBase,
        popBase, refNode, defaultOpts, strictOpts, docAncestor]

/-- C6, amended: the static pass rejects (with some error) every document
containing a local reference whose resolved pointer path, suffixed with `/`,
occurs as a substring of the reference node's tree path suffixed with `/` —
in particular a descendant referring to one of its ancestors; the
ancestor-to-descendant direction stated by the original claim is not checked
(see the C6 counterexample). -/
theorem c6_amended_substring_reject (schema : J)
    (h : ∃ l ∈ collectLocals [] schema,
          isSubstr ((strDrop l.dst 2) ++ "/") (l.src ++ "/") = true) :
    (checkLocalCircular schema).isSome = true := by
  obtain ⟨l, hmem, hsub⟩ := h
  simp only [checkLocalCircular]
  have hne : (collectLocals [] schema).isEmpty = false := by
    cases hcl : collectLocals [] schema with
    | nil => rw [hcl] at hmem; cases hmem
    | cons a b => rfl
  simp only [hne, Bool.false_eq_true, if_false]
  by_cases hany : (collectLocals [] schema).any (fun l => l.dst == "#") = true
  · simp [hany]
  · simp only [Bool.not_eq_true] at hany
    simp only [hany, Bool.false_eq_true, if_false]
    have hfc := findCirc_isSome (collectLocals [] schema) [] ⟨l, hmem, hsub⟩
    cases hres : findCirc [] (collectLocals [] schema) with
    | none => rw [hres] at hfc; cases hfc
    | some l2 => simp [hres]

/-- Witness for the C6 amended theorem: `{"a": {"$ref": "#/a"}}` satisfies
the substring condition and is rejected. -/
theorem c6_amended_substring_reject_witness :
    (∃ l ∈ collectLocals [] (.obj [("a", refNode "#/a")]),
        isSubstr ((strDrop l.dst 2) ++ "/") (l.src ++ "/") = true) ∧
    (checkLocalCircular (.obj [("a", refNode "#/a")])).isSome = true :=
  ⟨⟨⟨"a", "#/a"⟩, by decide, rfl⟩,
   c6_amended_substring_reject _ ⟨⟨"a", "#/a"⟩, by decide, rfl⟩⟩

/-- C7, counterexample: two references to the same nonexistent file invoke
the loader twice for the same canonical path within one top-level call
(failed loads are never cached), refuting "at most once per canonical
external document path". -/
theorem c7_counterexample :
    (deref [] 30 docMissFile defaultOpts []).map (fun x => (x.1, x.2.2.1.events))
      = some (.ok docMissFile,
              [Event.loaderCall "/cwd/nope.json" "/cwd",
               Event.loaderCall "/cwd/nope.json" "/cwd"]) := by
  simp [deref, derefSchema, visitNode, visitChildren, visitFields, visitElems, getRefSchema,
        checkLocalCircular, collectLocals, collectLocalsFields, collectLocalsArr, refValue?,
        lookupKey, getRefType, getRefFilePath, getRefPathValue, walkPath, strStarts, strEnds,
        strDrop, splitC, splitCList, listStarts, listSub, isSubstr, strToLower, lowerChar,
        parseNat?, parseNatList, isAbsolute, pathResolve, pathDirname, processCwd, stringify,
        stringifyArr, stringifyFields, md5, findCirc, createsCycle, reach, addToHistory,
        setCurrent, fileLoader, errMsg, setAtPath, setAtPathFields, setAtPathIdx, extractNewVal,
        alookup, jsTruthy, joinStrs, digitChar, natToStrGo, natToStr, intToStr, pushBase,
        popBase, refNode, defaultOpts, strictOpts, docMissFile]

/-- C7, amended: within one top-level call, once an external document's
fully resolved content has been stored in the cache, the loader is never
invoked for that canonical path again — every completed run's event log
satisfies `noCAS` (no `loaderCall` for a path after that path's
`cacheStore`).  Loads that fail are not cached and may recur. -/
theorem c7_amended_no_call_after_store (env : Env) (fuel : Nat) (d : J)
    (opts : Options) (c0 : Cache) (out : Except Err J × Options × St × Cache)
    (h : deref env fuel d opts c0 = some out) :
    noCAS out.2.2.1.events = true := by
  simp only [deref] at h
  split at h
  · cases h
  · rename_i r o2 st2 c2 hD
    have hI : Inv st2.events c2 := by
      refine (invPreserved fuel).1 _ _ _ _ _ _ ?_ hD
      exact ⟨rfl, fun p hp => by cases hp⟩
    split at h
    · cases h; exact hI.1
    · split at h
      · cases h; exact hI.1
      · cases h; exact hI.1

/-- Witness for the C7 amended theorem on the shared-file run. -/
theorem c7_amended_no_call_after_store_witness :
    ∃ out, deref envSameFile 30 docSameFile defaultOpts [] = some out ∧
           noCAS out.2.2.1.events = true := by
  have hex : ∃ out, deref envSameFile 30 docSameFile defaultOpts [] = some out := by
    simp [deref, derefSchema, visitNode, visitChildren, visitFields, visitElems, getRefSchema,
        checkLocalCircular, collectLocals, collectLocalsFields, collectLocalsArr, refValue?,
        lookupKey, getRefType, getRefFilePath, getRefPathValue, walkPath, strStarts, strEnds,
        strDrop, splitC, splitCList, listStarts, listSub, isSubstr, strToLower, lowerChar,
        parseNat?, parseNatList, isAbsolute, pathResolve, pathDirname, processCwd, stringify,
        stringifyArr, stringifyFields, md5, findCirc, createsCycle, reach, addToHistory,
        setCurrent, fileLoader, errMsg, setAtPath, setAtPathFields, setAtPathIdx, extractNewVal,
        alookup, jsTruthy, joinStrs, digitChar, natToStrGo, natToStr, intToStr, pushBase,
        popBase, refNode, defaultOpts, strictOpts, docSameFile, envSameFile]
  obtain ⟨out, hout⟩ := hex
  exact ⟨out, hout, c7_amended_no_call_after_store _ _ _ _ _ _ hout⟩

/-- C8: the process-wide cache is reset at the start of every top-level
call, so the result of `deref` does not depend on whatever cache contents an
earlier call left behind: runs from any two prior cache states coincide. -/
theorem c8_cache_isolation (env : Env) (fuel : Nat) (d : J) (opts : Options)
    (c1 c2 : Cache) :
    deref env fuel d opts c1 = deref env fuel d opts c2 := rfl

/-- C9: on any document with no `$ref` key anywhere, `deref` acts as the
identity (given fuel at least the document's size), independently of the
cache state left by earlier calls. -/
theorem c9_identity_no_refs (env : Env) (fuel : Nat) (d : J) (opts : Options)
    (c0 : Cache) (h : noRefs d = true) (hb : sizeOf d + 2 ≤ fuel) :
    (deref env fuel d opts c0).map (fun x => x.1) = some (.ok d) := by
  simp only [deref]
  rw [derefSchema_noop fuel d _ _ [] env h rfl rfl hb]
  rfl

/-- Witness for C9 on a concrete `$ref`-free document. -/
theorem c9_identity_no_refs_witness :
    noRefs (J.obj [("a", .num 1), ("b", .arr [.str "x", .null])]) = true ∧
    (deref [] 100000 (J.obj [("a", .num 1), ("b", .arr [.str "x", .null])])
        defaultOpts [("/cwd/old.json", .num 9)]).map (fun x => x.1)
      = some (.ok (J.obj [("a", .num 1), ("b", .arr [.str "x", .null])])) :=
  ⟨by decide,
   c9_identity_no_refs [] 100000 _ defaultOpts [("/cwd/old.json", .num 9)]
     (by decide) (by decide)⟩

/-- C10: `deref` mutates the caller's options object: entering with
`baseFolder` unset, the default is written into it (the returned options
differ from the input); while resolving the nested-folder file the loader
for `leaf.json` runs with `baseFolder` temporarily set to `/cwd/sub`, and
after the call `baseFolder` is restored to `/cwd`. -/
theorem c10_options_mutated :
    (deref envNested 30 docNested { baseFolder := none, failOnMissing := false } []).map
        (fun x => (x.1, x.2.1, x.2.2.1.events))
      = some (.ok (.obj [("r", .obj [("x", .obj [("v", .num 42)])])]),
              { baseFolder := some "/cwd", failOnMissing := false },
              [Event.subst "sub/inner.json",
               Event.cacheStore "/cwd/sub/inner.json",
               Event.subst "leaf.json",
               Event.cacheStore "/cwd/sub/leaf.json",
               Event.loaderCall "/cwd/sub/leaf.json" "/cwd/sub",
               Event.loaderCall "/cwd/sub/inner.json" "/cwd"]) := by
  simp [deref, derefSchema, visitNode, visitChildren, visitFields, visitElems, getRefSchema,
        checkLocalCircular, collectLocals, collectLocalsFields, collectLocalsArr, refValue?,
        lookupKey, getRefType, getRefFilePath, getRefPathValue, walkPath, strStarts, strEnds,
        strDrop, splitC, splitCList, listStarts, listSub, isSubstr, strToLower, lowerChar,
        parseNat?, parseNatList, isAbsolute, pathResolve, pathDirname, processCwd, stringify,
        stringifyArr, stringifyFields, md5, findCirc, createsCycle, reach, addToHistory,
        setCurrent, fileLoader, errMsg, setAtPath, setAtPathFields, setAtPathIdx, extractNewVal,
        alookup, jsTruthy, joinStrs, digitChar, natToStrGo, natToStr, intToStr, pushBase,
        popBase, refNode, defaultOpts, strictOpts, docNested, envNested]

end Deref
